import Mathlib

/-!
Verification development for the Notion read-only MCP proxy
(src/src/openapi-mcp-server/mcp/proxy.ts, one-pager version of the class
MCPProxy).  The TypeScript methods are shallowly embedded as total Lean
functions:

* remote behaviour (HttpClient.executeOperation per operation kind, the
  operation lookup table, and the outcome of each timeout race) is an
  explicit environment `Env`;
* the per-entity caches of the class are an explicit `Caches` record threaded
  through every function, association lists standing for the Maps;
* a thrown JavaScript error is a `FetchOutcome.thrown` / `Except.error`
  value, caught exactly where the source has a catch;
* concurrently launched tasks (Promise.all) are evaluated sequentially in
  program order: the source relies on a single cooperative scheduler and no
  claim depends on interleaving;
* every remote call that is issued is recorded in a `Log` of
  (operation name, argument) events;
* the cursor-following loop of handleBlockChildrenParallel is bounded by the
  fuel `Env.pfuel` (the source loops forever on an infinite cursor chain; on
  every finite chain a large enough fuel gives the source behaviour).
-/

namespace NotionProxy

/-- A log of issued remote calls: (operation name, argument) per call. -/
abbrev Log := List (String × String)

/-- A structured error thrown by the HTTP client (HttpClientError carries a
status; `status = 0` stands for an error object with no status field,
mirroring the falsiness of `error.status` in `error.status || 500`). -/
structure ThrownErr where
  message : String
  status : Nat
  deriving DecidableEq, Repr

/-- Outcome of one `httpClient.executeOperation` call: a thrown error or a
response with an HTTP status and a payload. -/
inductive FetchOutcome (α : Type) where
  | thrown (e : ThrownErr)
  | resp (status : Nat) (data : α)
  deriving DecidableEq, Repr

/-- A content block as the proxy reads it: `id`, `type`, `has_children`,
and `block[block.type]?.database_id` flattened into `database_id`; all other
fields of the JSON object are opaque `payload`. -/
structure Block where
  id : String
  btype : String
  has_children : Bool
  database_id : Option String
  payload : String
  deriving DecidableEq, Repr

/-- A block-children listing response body: `results`, `has_more`,
`next_cursor`, with the remaining top-level fields represented by `object`
and the opaque `extra`. -/
structure ListingData where
  object : String
  results : List Block
  has_more : Bool
  next_cursor : Option String
  extra : String
  deriving DecidableEq, Repr

/-- One property value of a page: its `id` (absent or empty when the source
skips it) and an opaque payload. -/
structure PropEntry where
  pid : Option String
  payload : String
  deriving DecidableEq, Repr

/-- A page payload as the proxy reads it: `id`, `object`, the `properties`
map when present, other fields opaque. -/
structure PageData where
  id : String
  object : String
  properties : Option (List (String × PropEntry))
  extra : String
  deriving DecidableEq, Repr

/-- A database payload (fields other than `id` are opaque). -/
structure DbData where
  id : String
  payload : String
  deriving DecidableEq, Repr

/-- One comment object. -/
structure Comment where
  id : String
  payload : String
  deriving DecidableEq, Repr

/-- A comments listing response body. -/
structure CommentsData where
  results : List Comment
  extra : String
  deriving DecidableEq, Repr

/-- The value stored under `details` of an enriched property and in the
property cache: a raw fetched payload, the literal unsupported-format stub
`(object property_item, type unsupported)`, or one of the error stubs
`(object property_item, type error)` with its message summarised. -/
inductive PropertyDetail where
  | raw (data : String)
  | unsupportedStub
  | errorStub (message : String)
  deriving DecidableEq, Repr

/-- Which side of the two timeout races of retrievePageRecursively wins for a
given (pageId, depth): the timer never fires, the timer beats the initial
page fetch, or the timer beats Promise.all of the expansion tasks.  The three
Booleans of `duringTasks` record which of the tasks (content, properties,
comments) had already resolved when the timer fired; the source discards this
information, so the embedding ignores the flags — they exist to let claims
about "already resolved data" be stated. -/
inductive TimeoutPoint where
  | never
  | duringFetch
  | duringTasks (contentResolved propsResolved commentsResolved : Bool)
  deriving DecidableEq, Repr

/-- The remote world and scheduler oracle: one deterministic behaviour per
operation kind and argument, the operation lookup table of the converter, the
outcome of each timeout race, and the fuel bounding the pagination loop. -/
structure Env where
  ops : String → Bool
  retrievePage : String → FetchOutcome PageData
  blockChildren : String → Option String → FetchOutcome ListingData
  databaseFetch : String → FetchOutcome DbData
  commentsFetch : String → FetchOutcome CommentsData
  propertyFetch : String → String → FetchOutcome String
  timeoutAt : String → Nat → TimeoutPoint
  pfuel : Nat

/-- Association-list lookup standing for Map.get / Map.has. -/
def alookup {α : Type} : List (String × α) → String → Option α
  | [], _ => none
  | (k, v) :: rest, key => if key = k then some v else alookup rest key

/-- Association-list insert standing for Map.set (later writes shadow). -/
def aset {α : Type} (l : List (String × α)) (k : String) (v : α) :
    List (String × α) :=
  (k, v) :: l

/-- The five caches of the MCPProxy instance. -/
structure Caches where
  pageCache : List (String × PageData)
  blockCache : List (String × Block)
  databaseCache : List (String × DbData)
  commentCache : List (String × Comment)
  propertyCache : List (String × PropertyDetail)

/-- A proxy with all caches empty. -/
def emptyCaches : Caches := ⟨[], [], [], [], []⟩

/-- JavaScript `x || d` for a numeric option: undefined and 0 are falsy. -/
def orDefaultNat : Option Nat → Nat → Nat
  | none, d => d
  | some 0, d => d
  | some n, _ => n

/-- JavaScript String.prototype.includes: `pat` occurs contiguously in `s`. -/
def strIncludes (s pat : String) : Bool := decide (pat.data <:+: s.data)

/-! ## handleBlockChildrenParallel (proxy.ts lines 1002-1085)

The pagination merger.  The source fetches the first page, then loops: while
`nextCursor` is set it pushes a request for `nextCursor` onto `pageRequests`
(without changing `nextCursor`), and once five requests are pending awaits
them all, appending each response's `results` to the accumulator and
replacing `nextCursor` with each response's `next_cursor` in turn. -/

/-- The value a subsequent-page request resolves to after the attached
`.then`/`.catch` handlers: `(data.results, data.next_cursor)` on a 200
response, `([], null)` on a non-200 response or a thrown error. -/
structure MappedPage where
  results : List Block
  next_cursor : Option String
  deriving DecidableEq, Repr

/-- One subsequent-page request of handleBlockChildrenParallel, with its
`.then`/`.catch` mapping applied. -/
def fetchPageMapped (env : Env) (blockId : String) (c : String) : MappedPage :=
  match env.blockChildren blockId (some c) with
  | .thrown _ => ⟨[], none⟩
  | .resp s d => if s = 200 then ⟨d.results, d.next_cursor⟩ else ⟨[], none⟩

/-- The `while (nextCursor)` loop of handleBlockChildrenParallel.  State:
accumulated `results`, the current `nextCursor`, and the pending
`pageRequests` (each recorded by its cursor, since the request parameters are
`(...params, start_cursor: nextCursor)` at push time).  Each loop iteration
consumes one unit of fuel; at fuel 0 the loop is cut short with the results
gathered so far (the source would keep looping). -/
def mergeLoop (env : Env) (blockId : String) :
    Nat → List Block → Option String → List String → (List Block × Log)
  | _, acc, none, _ => (acc, [])
  | 0, acc, some _, _ => (acc, [])
  | fuel + 1, acc, some c, pending =>
    let pending2 := pending ++ [c]
    if 5 ≤ pending2.length then
      let rs := pending2.map (fetchPageMapped env blockId)
      let logB : Log := pending2.map (fun cur => ("API-get-block-children", cur))
      let merged := rs.foldl (fun p r => (p.1 ++ r.results, r.next_cursor)) (acc, some c)
      let rest := mergeLoop env blockId fuel merged.1 merged.2 []
      (rest.1, logB ++ rest.2)
    else
      mergeLoop env blockId fuel acc (some c) pending2

/-- The body handleBlockChildrenParallel wraps in its response: the first
page's raw data when its status was not 200, else the first page's data with
`results` replaced by the merged sequence and `has_more`/`next_cursor`
overwritten with `false`/`null`. -/
inductive BCPBody where
  | rawError (data : ListingData)
  | merged (data : ListingData)
  deriving DecidableEq, Repr

/-- The block list the caller recovers from a BCPBody via
`JSON.parse(...).results || []`. -/
def BCPBody.blocks : BCPBody → List Block
  | .rawError d => d.results
  | .merged d => d.results

/-- handleBlockChildrenParallel.  A thrown first-page fetch propagates as
`Except.error` (there is no try/catch around it in the source); a non-200
first page is returned as its raw data; otherwise the merge loop runs and the
merged response is the first page's fields with `results`, `has_more = false`
and `next_cursor = null` overwritten. -/
def handleBlockChildrenParallel (env : Env) (blockId : String) :
    Except ThrownErr (BCPBody × Log) :=
  match env.blockChildren blockId none with
  | .thrown e => .error e
  | .resp s d =>
    let log0 : Log := [("API-get-block-children", blockId)]
    if s = 200 then
      let run := mergeLoop env blockId env.pfuel d.results d.next_cursor []
      .ok (.merged { d with results := run.1, has_more := false, next_cursor := none },
           log0 ++ run.2)
    else
      .ok (.rawError d, log0)

/-! ## Options and parameters (handleOnePagerRequest lines 508-520) -/

/-- RecursiveExplorationOptions as handleOnePagerRequest builds them. -/
structure Options where
  maxDepth : Nat
  includeDatabases : Bool
  includeComments : Bool
  includeProperties : Bool
  maxParallelRequests : Nat
  skipCache : Bool
  batchSize : Nat
  timeoutMs : Nat
  deriving DecidableEq, Repr

/-- The tool-call parameters of API-get-one-pager; `none` stands for an
absent JSON field. -/
structure Params where
  page_id : String
  maxDepth : Option Nat := none
  includeDatabases : Option Bool := none
  includeComments : Option Bool := none
  includeProperties : Option Bool := none
  maxParallelRequests : Option Nat := none
  skipCache : Option Bool := none
  batchSize : Option Nat := none
  timeoutMs : Option Nat := none
  deriving DecidableEq, Repr

/-- Lines 511-520: `params.maxDepth || 5`, `params.includeDatabases !== false`,
`params.skipCache || false`, and so on.  Note that a numeric 0 is falsy, so
`maxDepth = 0` resolves to 5. -/
def resolveOptions (p : Params) : Options where
  maxDepth := orDefaultNat p.maxDepth 5
  includeDatabases := p.includeDatabases ≠ some false
  includeComments := p.includeComments ≠ some false
  includeProperties := p.includeProperties ≠ some false
  maxParallelRequests := orDefaultNat p.maxParallelRequests 15
  skipCache := p.skipCache = some true
  batchSize := orDefaultNat p.batchSize 10
  timeoutMs := orDefaultNat p.timeoutMs 60000

/-- Every use site of the depth bound reads `options.maxDepth || 5`. -/
def effMaxDepth (o : Options) : Nat := if o.maxDepth = 0 then 5 else o.maxDepth

/-- Every use site of the batch size reads `options.batchSize || 10`, hence the
effective batch size is never 0. -/
def effBatchSize (o : Options) : Nat := if o.batchSize = 0 then 10 else o.batchSize

/-! ## retrieveDatabase (lines 845-877) -/

/-- The value retrieveDatabase resolves to: the database payload (from cache
or a 200 response), the note object when the operation is missing from the
lookup, or the object `(id, error Failed to retrieve database)` which both
the non-200 branch and the catch return. -/
inductive DbResult where
  | payload (d : DbData)
  | noOpNote (id : String)
  | fetchError (id : String)
  deriving DecidableEq, Repr

/-- retrieveDatabase: cache-first unless skipCache, soft note when the
operation is not found, fetch with 200 caching, errors degrade to a tagged
value (the method never throws: its catch returns the error object). -/
def retrieveDatabase (env : Env) (caches : Caches) (opts : Options)
    (dbId : String) : DbResult × Caches × Log :=
  match (if opts.skipCache then none else alookup caches.databaseCache dbId) with
  | some d => (.payload d, caches, [])
  | none =>
    if env.ops "API-retrieve-a-database" = false then (.noOpNote dbId, caches, [])
    else
      match env.databaseFetch dbId with
      | .thrown _ => (.fetchError dbId, caches, [("API-retrieve-a-database", dbId)])
      | .resp s d =>
        if s = 200 then
          (.payload d,
           { caches with databaseCache := aset caches.databaseCache dbId d },
           [("API-retrieve-a-database", dbId)])
        else (.fetchError dbId, caches, [("API-retrieve-a-database", dbId)])

/-! ## retrieveComments (lines 880-915) -/

/-- retrieveComments: a missing operation, a thrown error or a non-200
status all yield an empty result list; a 200 response is returned and each
comment in it is cached by id (every modelled comment has an id). -/
def retrieveComments (env : Env) (caches : Caches) (blockId : String) :
    CommentsData × Caches × Log :=
  if env.ops "API-retrieve-a-comment" = false then (⟨[], ""⟩, caches, [])
  else
    match env.commentsFetch blockId with
    | .thrown _ => (⟨[], ""⟩, caches, [("API-retrieve-a-comment", blockId)])
    | .resp s d =>
      if s = 200 then
        (d,
         { caches with
            commentCache := d.results.foldl (fun m c => aset m c.id c) caches.commentCache },
         [("API-retrieve-a-comment", blockId)])
      else (⟨[], ""⟩, caches, [("API-retrieve-a-comment", blockId)])

/-! ## retrievePageBasicInfo (lines 799-842) -/

/-- The value retrievePageBasicInfo resolves to.  The source projects
presentation fields (title, icon, cover, url, timestamps) out of the page
payload; the embedding keeps the whole payload and abstracts the
projection, since no claim reads those fields. -/
inductive PageBasicInfo where
  | fromCache (d : PageData)
  | fetched (d : PageData)
  | noOp (id : String)
  | httpError (id : String) (status : Nat)
  | threw (id message : String)
  deriving DecidableEq, Repr

/-- retrievePageBasicInfo: cache-first unless skipCache; a missing operation
yields a note object without a call; a fetch is logged, cached on 200, and
degrades to a tagged error value otherwise (the catch returns, never
rethrows). -/
def retrievePageBasicInfo (env : Env) (caches : Caches) (opts : Options)
    (pageId : String) : PageBasicInfo × Caches × Log :=
  match (if opts.skipCache then none else alookup caches.pageCache pageId) with
  | some d => (.fromCache d, caches, [])
  | none =>
    if env.ops "API-retrieve-a-page" = false then (.noOp pageId, caches, [])
    else
      match env.retrievePage pageId with
      | .thrown e => (.threw pageId e.message, caches, [("API-retrieve-a-page", pageId)])
      | .resp s d =>
        if s = 200 then
          (.fetched d,
           { caches with pageCache := aset caches.pageCache pageId d },
           [("API-retrieve-a-page", pageId)])
        else (.httpError pageId s, caches, [("API-retrieve-a-page", pageId)])

/-! ## enrichPageProperties (lines 918-999) -/

/-- One property of the enriched properties object: the original entry plus
the `details` field when the loop body set one. -/
structure EnrichedProp where
  pid : Option String
  payload : String
  details : Option PropertyDetail
  deriving DecidableEq, Repr

/-- The property cache key of the source, `pageId:propId`. -/
def propCacheKey (pageId propId : String) : String := pageId ++ ":" ++ propId

/-- The loop body of enrichPageProperties for one property: skip entries
without an id (`if (!propId) continue`, the empty string being falsy);
cache-first unless skipCache; the internal-link marker test
(`propId.includes(notion scheme) || propId.includes(percent-encoded scheme)`)
yields the unsupported stub without any call; a missing operation returns
without details; otherwise the fetch is issued — a thrown error is mapped by
the attached catch to a synthetic response whose status is
`error.status || 500` and whose data is the error stub (so a thrown status
of 200 would cache that stub, as in the source), a 200 response attaches and
caches the data, and a non-200 response attaches an error stub whose message
summarises the status and payload. -/
def enrichOneProperty (env : Env) (caches : Caches) (opts : Options)
    (pageId : String) (pe : PropEntry) : EnrichedProp × Caches × Log :=
  match pe.pid with
  | none => (⟨pe.pid, pe.payload, none⟩, caches, [])
  | some p =>
    if p = "" then (⟨pe.pid, pe.payload, none⟩, caches, [])
    else
      let key := propCacheKey pageId p
      match (if opts.skipCache then none else alookup caches.propertyCache key) with
      | some d => (⟨pe.pid, pe.payload, some d⟩, caches, [])
      | none =>
        if strIncludes p "notion://" || strIncludes p "%3A%2F%2F" then
          (⟨pe.pid, pe.payload, some .unsupportedStub⟩, caches, [])
        else if env.ops "API-retrieve-a-page-property" = false then
          (⟨pe.pid, pe.payload, none⟩, caches, [])
        else
          let ev : Log := [("API-retrieve-a-page-property", key)]
          match env.propertyFetch pageId p with
          | .thrown e =>
            let eff := if e.status = 0 then 500 else e.status
            if eff = 200 then
              (⟨pe.pid, pe.payload, some (.errorStub e.message)⟩,
               { caches with
                  propertyCache := aset caches.propertyCache key (.errorStub e.message) },
               ev)
            else (⟨pe.pid, pe.payload, some (.errorStub e.message)⟩, caches, ev)
          | .resp s v =>
            if s = 200 then
              (⟨pe.pid, pe.payload, some (.raw v)⟩,
               { caches with propertyCache := aset caches.propertyCache key (.raw v) },
               ev)
            else
              (⟨pe.pid, pe.payload, some (.errorStub ("HTTP status " ++ toString s))⟩,
               caches, ev)

/-- enrichPageProperties: every property of the page is processed (the source
awaits all property promises together; the embedding evaluates them in entry
order, threading the shared caches), and the enriched object keeps the
entries in their original order. -/
def enrichPageProperties (env : Env) (caches : Caches) (opts : Options)
    (pageId : String) :
    List (String × PropEntry) → List (String × EnrichedProp) × Caches × Log
  | [] => ([], caches, [])
  | (nm, pe) :: rest =>
    let r := enrichOneProperty env caches opts pageId pe
    let rr := enrichPageProperties env r.2.1 opts pageId rest
    ((nm, r.1) :: rr.1, rr.2.1, r.2.2 ++ rr.2.2)

/-! ## retrieveBlocksRecursively (lines 690-796)

The elements of the array this method returns are heterogeneous: the
max-depth stub object, the catch's failure object, or an enriched block. -/

mutual
/-- An enriched block: the original block spread, plus `children` when it had
children, `database` when a database block was resolved, `page_info` when a
child page's basic info was fetched.  The `.catch` handlers that would write
`children_error` / `database_error` / `page_info_error` guard calls that
never reject (each callee catches internally and returns a value), so those
fields are statically absent and not modelled. -/
inductive EBlock where
  | mk (base : Block) (children : Option (List BlockNode))
      (database : Option DbResult) (page_info : Option PageBasicInfo)

/-- One element of a retrieveBlocksRecursively result: the max-depth stub
`(note Maximum recursion depth reached)`, the catch's
`(id, error, retrievalFailed true)` object, or an enriched block. -/
inductive BlockNode where
  | depthStub
  | failure (id message : String)
  | node (eb : EBlock)
end

/-- The block an enriched block was built from. -/
def EBlock.base : EBlock → Block
  | .mk b _ _ _ => b

/-- The block a BlockNode's enriched block was built from, when it is one. -/
def BlockNode.baseOf : BlockNode → Option Block
  | .node eb => some eb.base
  | _ => none

/-- The id a BlockNode carries, when it carries one. -/
def BlockNode.idOf : BlockNode → Option String
  | .depthStub => none
  | .failure i _ => some i
  | .node eb => some eb.base.id

/-- The children field of an enriched block. -/
def EBlock.childrenOf : EBlock → Option (List BlockNode)
  | .mk _ c _ _ => c

/-- The database field of an enriched block. -/
def EBlock.databaseOf : EBlock → Option DbResult
  | .mk _ _ d _ => d

/-- The page_info field of an enriched block. -/
def EBlock.pageInfoOf : EBlock → Option PageBasicInfo
  | .mk _ _ _ p => p

/-- The first task pushed for a batch member (lines 734-744): recurse into
the children when the block has them (`recur` is the recursive call at
depth + 1). -/
def childrenTask (recur : Caches → String → Nat → List BlockNode × Caches × Log)
    (depth : Nat) (caches : Caches) (b : Block) :
    Option (List BlockNode) × Caches × Log :=
  if b.has_children then
    let r := recur caches b.id (depth + 1)
    (some r.1, r.2.1, r.2.2)
  else (none, caches, [])

/-- The second task (lines 746-760): resolve the database when the option is
on, the block is a database reference, and it carries a database id. -/
def databaseTask (env : Env) (opts : Options) (caches : Caches) (b : Block) :
    Option DbResult × Caches × Log :=
  if opts.includeDatabases ∧ (b.btype = "child_database" ∨ b.btype = "linked_database") then
    match b.database_id with
    | some dbId =>
      let r := retrieveDatabase env caches opts dbId
      (some r.1, r.2.1, r.2.2)
    | none => (none, caches, [])
  else (none, caches, [])

/-- The third task (lines 762-773): fetch lightweight page info when the
block is a child page and one more level of depth budget remains
(`currentDepth < (options.maxDepth || 5) - 1`). -/
def pageInfoTask (env : Env) (opts : Options) (depth : Nat) (caches : Caches)
    (b : Block) : Option PageBasicInfo × Caches × Log :=
  if b.btype = "child_page" ∧ depth < effMaxDepth opts - 1 then
    let r := retrievePageBasicInfo env caches opts b.id
    (some r.1, r.2.1, r.2.2)
  else (none, caches, [])

/-- The body of `batch.map` in retrieveBlocksRecursively (lines 725-781):
cache the block, then run its three tasks. -/
def enrichBlock (env : Env) (opts : Options)
    (recur : Caches → String → Nat → List BlockNode × Caches × Log)
    (depth : Nat) (caches : Caches) (b : Block) : EBlock × Caches × Log :=
  let caches0 : Caches := { caches with blockCache := aset caches.blockCache b.id b }
  let rc := childrenTask recur depth caches0 b
  let rd := databaseTask env opts rc.2.1 b
  let rp := pageInfoTask env opts depth rd.2.1 b
  (.mk b rc.1 rd.1 rp.1, rp.2.1, rc.2.2 ++ rd.2.2 ++ rp.2.2)

/-- One batch of blocks, enriched in listing order (the source starts the
batch members concurrently and Promise.all returns their results in input
order; the embedding threads the shared caches left to right). -/
def runBlockList (enrich : Caches → Block → EBlock × Caches × Log) :
    List Block → Caches → List BlockNode × Caches × Log
  | [], c => ([], c, [])
  | b :: bs, c =>
    let r := enrich c b
    let rr := runBlockList enrich bs r.2.1
    (.node r.1 :: rr.1, rr.2.1, r.2.2 ++ rr.2.2)

/-- The batch loop `for (i = 0; i < blocks.length; i += batchSize)`: slice a
batch of `n`, enrich it, append its results, continue with the rest.  The
extra fuel argument (called with the list's length) only bounds the
recursion; it never runs out because the effective batch size is at least 1. -/
def runBatches (enrich : Caches → Block → EBlock × Caches × Log) (n : Nat) :
    Nat → List Block → Caches → List BlockNode × Caches × Log
  | 0, _, c => ([], c, [])
  | fuel + 1, l, c =>
    match l with
    | [] => ([], c, [])
    | b :: bs =>
      let r := runBlockList enrich ((b :: bs).take n) c
      let rr := runBatches enrich n fuel ((b :: bs).drop n) r.2.1
      (r.1 ++ rr.1, rr.2.1, r.2.2 ++ rr.2.2)

/-- retrieveBlocksRecursively.  The depth guard returns the stub array; a
missing child-listing operation throws and the catch returns the failure
array, as does a thrown first page of the pagination merge; an empty listing
returns the empty array; otherwise the listing is processed in sequential
batches of the effective batch size.  Recursion is structural on the fuel,
which every recursive call decrements along with incrementing the depth;
callers pass a fuel strictly above the remaining depth budget, so the fuel-0
stub (returning the same array as the depth guard) is never reached. -/
def retrieveBlocksRecursively (env : Env) (opts : Options) :
    Nat → Caches → String → Nat → List BlockNode × Caches × Log
  | 0, caches, _, _ => ([.depthStub], caches, [])
  | fuel + 1, caches, blockId, depth =>
    if effMaxDepth opts ≤ depth then ([.depthStub], caches, [])
    else if env.ops "API-get-block-children" = false then
      ([.failure blockId "API-get-block-children method not found."], caches, [])
    else
      match handleBlockChildrenParallel env blockId with
      | .error e => ([.failure blockId e.message], caches, [])
      | .ok body =>
        let blocks := body.1.blocks
        if blocks = [] then ([], caches, body.2)
        else
          let enrich := fun (c : Caches) (b : Block) =>
            enrichBlock env opts
              (fun c2 id d => retrieveBlocksRecursively env opts fuel c2 id d)
              depth c b
          let r := runBatches enrich (effBatchSize opts) blocks.length blocks caches
          (r.1, r.2.1, body.2 ++ r.2.2)

/-! ## retrievePageRecursively (lines 574-687) -/

/-- The page node retrievePageRecursively returns, as the union of the five
object shapes the source can produce: the max-depth stub, the non-200 fetch
result, the timeout object of the catch, the generic failure object of the
catch, and the enriched page (the spread of the page payload, kept whole in
`page`, plus the task results). -/
structure PageNode where
  id : String
  page : Option PageData := none
  content : Option (List BlockNode) := none
  detailed_properties : Option (List (String × EnrichedProp)) := none
  comments : Option CommentsData := none
  error : Option String := none
  status : Option Nat := none
  details : Option PageData := none
  partial_results : Bool := false
  retrievalFailed : Bool := false
  note : Option String := none

/-- Line 585: the max-depth stub node. -/
def depthStubNode (pageId : String) : PageNode :=
  { id := pageId, note := some "Maximum recursion depth reached" }

/-- Lines 672-677: the node returned when the caught error's message contains
the timed-out marker.  The note interpolates the raw `options.timeoutMs`. -/
def timeoutNode (pageId : String) (opts : Options) : PageNode :=
  { id := pageId
    error := some "Operation timed out"
    partial_results := true
    note := some ("Processing exceeded timeout limit (" ++ toString opts.timeoutMs ++ "ms)") }

/-- Lines 681-685: the node of the generic catch. -/
def failureNode (pageId message : String) : PageNode :=
  { id := pageId, error := some message, retrievalFailed := true }

/-- Lines 608-613: the node returned on a non-200 page fetch. -/
def httpErrorNode (pageId : String) (s : Nat) (d : PageData) : PageNode :=
  { id := pageId, error := some "Failed to retrieve page", status := some s,
    details := some d }

/-- The property-enrichment task of retrievePageRecursively (lines 629-633):
run when the option is on and the payload carries properties. -/
def propsTask (env : Env) (opts : Options) (caches : Caches) (pageId : String)
    (pageData : PageData) :
    Option (List (String × EnrichedProp)) × Caches × Log :=
  match pageData.properties with
  | some props =>
    if opts.includeProperties then
      let r := enrichPageProperties env caches opts pageId props
      (some r.1, r.2.1, r.2.2)
    else (none, caches, [])
  | none => (none, caches, [])

/-- The comments task of retrievePageRecursively (lines 636-640). -/
def commentsTask (env : Env) (opts : Options) (caches : Caches)
    (pageId : String) : Option CommentsData × Caches × Log :=
  if opts.includeComments then
    let r := retrieveComments env caches pageId
    (some r.1, r.2.1, r.2.2)
  else (none, caches, [])

/-- Lines 621-667 given resolved page data: launch the three tasks (content
always, at depth + 1; property enrichment when enabled and the payload has
properties; comments when enabled), race their combined completion against
the node's timer, and either return the timeout node — discarding the task
outputs while keeping their cache writes and issued calls, since the started
promises run on — or merge the outputs into the spread page data.  The
content fuel passed to the block recursion is the effective max depth, which
is strictly above every remaining depth budget. -/
def runPageTasks (env : Env) (caches : Caches) (pageId : String)
    (opts : Options) (depth : Nat) (pageData : PageData) :
    PageNode × Caches × Log :=
  let rc := retrieveBlocksRecursively env opts (effMaxDepth opts) caches pageId (depth + 1)
  let rp := propsTask env opts rc.2.1 pageId pageData
  let rm := commentsTask env opts rp.2.1 pageId
  let log := rc.2.2 ++ rp.2.2 ++ rm.2.2
  match env.timeoutAt pageId depth with
  | .duringTasks _ _ _ => (timeoutNode pageId opts, rm.2.1, log)
  | _ =>
    ({ id := pageData.id
       page := some pageData
       content := some rc.1
       detailed_properties := rp.1
       comments := match rm.1 with
         | some cm => if 0 < cm.results.length then some cm else none
         | none => none },
     rm.2.1, log)

/-- retrievePageRecursively.  Depth guard first; then the page is resolved
from the cache (unless skipCache) or fetched: a missing operation throws and
the catch turns it into the failure node, the fetch races the node's timer
(losing the race throws the timed-out error, caught into the timeout node;
the call itself was already issued), a thrown fetch is caught into the
timeout node when its message contains the timed-out marker and into the
failure node otherwise, and a non-200 status returns the http-error node
directly.  A 200 response is cached and the tasks run. -/
def retrievePageRecursively (env : Env) (caches : Caches) (pageId : String)
    (opts : Options) (depth : Nat) : PageNode × Caches × Log :=
  if effMaxDepth opts ≤ depth then (depthStubNode pageId, caches, [])
  else
    match (if opts.skipCache then none else alookup caches.pageCache pageId) with
    | some d => runPageTasks env caches pageId opts depth d
    | none =>
      if env.ops "API-retrieve-a-page" = false then
        (failureNode pageId "API-retrieve-a-page method not found.", caches, [])
      else
        let ev : Log := [("API-retrieve-a-page", pageId)]
        match env.timeoutAt pageId depth with
        | .duringFetch => (timeoutNode pageId opts, caches, ev)
        | _ =>
          match env.retrievePage pageId with
          | .thrown e =>
            if strIncludes e.message "timed out" then (timeoutNode pageId opts, caches, ev)
            else (failureNode pageId e.message, caches, ev)
          | .resp s d =>
            if s = 200 then
              let caches2 : Caches :=
                { caches with pageCache := aset caches.pageCache pageId d }
              let r := runPageTasks env caches2 pageId opts depth d
              (r.1, r.2.1, ev ++ r.2.2)
            else (httpErrorNode pageId s d, caches, ev)

/-! ## handleOnePagerRequest (lines 508-571) -/

/-- The `_meta` object attached to a successful one-pager response (the
wall-clock fields processingTimeMs and retrievedAt are abstracted away; the
echoed options are kept). -/
structure MetaInfo where
  maxDepth : Nat
  includeDatabases : Bool
  includeComments : Bool
  includeProperties : Bool
  deriving DecidableEq, Repr

/-- The response body of handleOnePagerRequest: the page tree with its meta
object, or the catch's error envelope
`(status error, message, code, details?, timestamp)`.  The envelope is only
produced when the awaited retrieval rejects; retrievePageRecursively catches
every internal failure and returns a node, so the embedded try-body never
errors. -/
inductive OnePagerResult where
  | tree (node : PageNode) (meta : MetaInfo)
  | errorEnvelope (message : String) (code : Nat)

/-- The try-body of handleOnePagerRequest: resolve the options and await the
recursive retrieval at depth 0.  Its Except type records that a rejection
here would reach the catch; the retrieval never rejects. -/
def handleOnePagerTry (env : Env) (caches : Caches) (p : Params) :
    Except ThrownErr (PageNode × Caches × Log) :=
  .ok (retrievePageRecursively env caches p.page_id (resolveOptions p) 0)

/-- handleOnePagerRequest: the resolved options, the retrieval, and the
response — the enriched node with `_meta` on success, the error envelope if
the try-body rejected. -/
def handleOnePagerRequest (env : Env) (caches : Caches) (p : Params) :
    OnePagerResult × Caches × Log :=
  let opts := resolveOptions p
  match handleOnePagerTry env caches p with
  | .ok r =>
    (.tree r.1 ⟨opts.maxDepth, opts.includeDatabases, opts.includeComments,
                opts.includeProperties⟩,
     r.2.1, r.2.2)
  | .error e => (.errorEnvelope e.message e.status, caches, [])

/-! ## Observers and concrete environments used by the claim statements -/

/-- The payload of an Except when it is ok. -/
def exOk {ε α : Type} : Except ε α → Option α
  | .ok a => some a
  | .error _ => none

/-- How many retrieve-a-page calls for the given page id a log records. -/
def pageCalls (log : Log) (k : String) : Nat :=
  log.countP (fun e => decide (e.1 = "API-retrieve-a-page" ∧ e.2 = k))

/-- The node of a one-pager response when it is a tree. -/
def resultNode : OnePagerResult → Option PageNode
  | .tree n _ => some n
  | .errorEnvelope _ _ => none

/-- A plain paragraph block with the given id. -/
def mkBlock (i : String) : Block := ⟨i, "paragraph", false, none, ""⟩

/-- A base environment: every operation exists, listings are empty, fetches
of pages, databases and properties miss, no timer fires. -/
def pagEnvBase : Env where
  ops := fun _ => true
  retrievePage := fun i => .resp 404 ⟨i, "page", none, ""⟩
  blockChildren := fun _ _ => .resp 200 ⟨"list", [], false, none, ""⟩
  databaseFetch := fun i => .resp 404 ⟨i, ""⟩
  commentsFetch := fun _ => .resp 200 ⟨[], ""⟩
  propertyFetch := fun _ _ => .resp 404 ""
  timeoutAt := fun _ _ => .never
  pfuel := 30

/-- A three-page child listing: P1 = (b1 b2) with cursor c2, P2 = (b3 b4)
with cursor c3, P3 = (b5) final. -/
def pagEnv3 : Env :=
  { pagEnvBase with
    blockChildren := fun _ c =>
      match c with
      | none => .resp 200 ⟨"list", [mkBlock "b1", mkBlock "b2"], true, some "c2", "x"⟩
      | some "c2" => .resp 200 ⟨"list", [mkBlock "b3", mkBlock "b4"], true, some "c3", "x"⟩
      | some "c3" => .resp 200 ⟨"list", [mkBlock "b5"], false, none, "x"⟩
      | some _ => .resp 400 ⟨"err", [], false, none, "x"⟩ }

/-- A two-page child listing whose second page fetch throws. -/
def pagEnv2 : Env :=
  { pagEnvBase with
    blockChildren := fun _ c =>
      match c with
      | none => .resp 200 ⟨"list", [mkBlock "b1", mkBlock "b2"], true, some "c2", "x"⟩
      | some _ => .thrown ⟨"network failure", 500⟩ }

/-- The root page payload of the happy-path environment. -/
def pageA : PageData := ⟨"root", "page", some [("Title", ⟨some "ti", "pay"⟩)], "ex"⟩

/-- A happy-path environment: the root page resolves with one paragraph
child, one comment, and one fetchable property. -/
def envA : Env :=
  { pagEnvBase with
    retrievePage := fun i =>
      if i = "root" then .resp 200 pageA else .resp 404 ⟨i, "page", none, ""⟩
    blockChildren := fun i c =>
      if i = "root" ∧ c = none then .resp 200 ⟨"list", [mkBlock "b1"], false, none, "x"⟩
      else .resp 200 ⟨"list", [], false, none, "x"⟩
    commentsFetch := fun _ => .resp 200 ⟨[⟨"cm1", "hi"⟩], "y"⟩
    propertyFetch := fun _ _ => .resp 200 "val" }

/-- The happy-path environment with the root node's timer firing during the
expansion tasks, after the content task had resolved. -/
def envT : Env :=
  { envA with
    timeoutAt := fun i d =>
      if i = "root" ∧ d = 0 then .duringTasks true false false else .never }

/-- The happy-path environment with an empty operation lookup table. -/
def envN : Env := { envA with ops := fun _ => false }

/-- A one-pager call for the root page with default options. -/
def paramsRoot : Params := { page_id := "root" }

/-- A one-pager call for the root page with maxDepth 0. -/
def paramsZero : Params := { page_id := "root", maxDepth := some 0 }

/-! ## Small facts about the embedding -/

/-- The effective depth bound is positive: `options.maxDepth || 5` never
evaluates to 0. -/
theorem effMaxDepth_pos (o : Options) : 0 < effMaxDepth o := by
  unfold effMaxDepth
  split <;> omega

/-- The effective batch size is positive: `options.batchSize || 10` never
evaluates to 0. -/
theorem effBatchSize_pos (o : Options) : 0 < effBatchSize o := by
  unfold effBatchSize
  split <;> omega

/-! ## Claim C1 — pagination merge (code bug)

The claim says every multi-page merge fetches each page exactly once in
cursor order and returns the concatenation P1 ++ P2 ++ P3.  The loop pushes
a request for the unchanged `nextCursor` until five requests are pending, so
every page after the first is requested five times and its results are
appended five times: on the 3-page listing of `pagEnv3` the merge returns 17
items, P1 ++ P2^5 ++ P3^5, not the 5 items P1 ++ P2 ++ P3. -/

/-- C1: on the three-page listing (P1 = b1 b2, P2 = b3 b4, P3 = b5) the
merged results are P1 followed by five copies of P2 and five copies of P3,
and the cursor of page 2 is fetched five times — refuting fetch-once and
concatenation-in-order, and witnessing the duplicated-fetch slip. -/
theorem bcp_three_pages_duplicated :
    (exOk (handleBlockChildrenParallel pagEnv3 "blk")).map
        (fun r => r.1.blocks.map Block.id) =
      some ["b1", "b2", "b3", "b4", "b3", "b4", "b3", "b4", "b3", "b4", "b3", "b4",
            "b5", "b5", "b5", "b5", "b5"] ∧
    (exOk (handleBlockChildrenParallel pagEnv3 "blk")).map
        (fun r => r.2.countP (fun e => e.2 == "c2")) = some 5 :=
  ⟨rfl, rfl⟩

/-! ## Claim C5 — fail fast on page 1, truncate afterwards -/

/-- C5: a thrown first-page fetch propagates out of the pagination merge
unchanged (there is no catch around it), while on the two-page listing of
`pagEnv2`, whose second page fetch throws, the merge returns the two items
of page 1 without raising. -/
theorem pagination_fail_fast_and_truncation :
    (∀ (env : Env) (blockId : String) (e : ThrownErr),
       env.blockChildren blockId none = .thrown e →
       handleBlockChildrenParallel env blockId = .error e) ∧
    (exOk (handleBlockChildrenParallel pagEnv2 "blk")).map
        (fun r => r.1.blocks.map Block.id) = some ["b1", "b2"] := by
  refine ⟨?_, rfl⟩
  intro env blockId e h
  simp [handleBlockChildrenParallel, h]

/-! ## Claim C10 — top-level fields of the merged response -/

/-- C10: when the first page succeeded, the merged block-children response
has `has_more = false` and `next_cursor = null`, and passes the other
top-level fields of the first page's data (here `object` and the opaque
`extra`) through unchanged. -/
theorem merged_response_top_fields (env : Env) (blockId : String)
    (d : ListingData) (body : BCPBody) (log : Log)
    (h200 : env.blockChildren blockId none = .resp 200 d)
    (hr : handleBlockChildrenParallel env blockId = .ok (body, log)) :
    ∃ m : ListingData, body = .merged m ∧ m.has_more = false ∧
      m.next_cursor = none ∧ m.object = d.object ∧ m.extra = d.extra := by
  refine ⟨{ d with
              results := (mergeLoop env blockId env.pfuel d.results d.next_cursor []).1,
              has_more := false, next_cursor := none }, ?_, rfl, rfl, rfl, rfl⟩
  simp [handleBlockChildrenParallel, h200] at hr
  exact hr.1.symm

/-- C10 witness: the concrete one-page listing of envA produces the merged
response with its passthrough fields. -/
theorem merged_response_top_fields_witness :
    ∃ m : ListingData,
      BCPBody.merged ⟨"list", [mkBlock "b1"], false, none, "x"⟩ = .merged m ∧
      m.has_more = false ∧ m.next_cursor = none ∧ m.object = "list" ∧ m.extra = "x" :=
  merged_response_top_fields envA "root" ⟨"list", [mkBlock "b1"], false, none, "x"⟩
    (.merged ⟨"list", [mkBlock "b1"], false, none, "x"⟩)
    [("API-get-block-children", "root")] rfl rfl

/-! ## Claim C2 — maxDepth = 0 (corrected)

The claim says a maxDepth = 0 call returns exactly the stub node.  Both
`params.maxDepth || 5` (building the options) and `options.maxDepth || 5`
(every depth check) treat 0 as unset, so a maxDepth = 0 call runs a full
depth-5 expansion; the stub (whose note reads Maximum recursion depth
reached, not max depth reached) appears only at depths at or above the
effective bound. -/

/-- C2 counterexample: the maxDepth = 0 call on envA returns a tree node
with no note, no error, and a populated content field — not the claimed
stub `(id, note)`. -/
theorem maxDepth_zero_counterexample :
    (resultNode (handleOnePagerRequest envA emptyCaches paramsZero).1).map PageNode.note
        = some none ∧
    (resultNode (handleOnePagerRequest envA emptyCaches paramsZero).1).map
        (fun n => n.content.isSome) = some true ∧
    (resultNode (handleOnePagerRequest envA emptyCaches paramsZero).1).map PageNode.error
        = some none :=
  ⟨rfl, rfl, rfl⟩

/-- C2 amended: maxDepth = 0 resolves to the default 5, and the stub node
`(id, note Maximum recursion depth reached)` is returned exactly when the
current depth has reached the effective depth bound. -/
theorem maxDepth_zero_treated_as_default :
    (∀ p : Params, p.maxDepth = some 0 →
       resolveOptions p = resolveOptions { p with maxDepth := some 5 }) ∧
    (∀ (env : Env) (caches : Caches) (pageId : String) (opts : Options) (depth : Nat),
       effMaxDepth opts ≤ depth →
       retrievePageRecursively env caches pageId opts depth =
         (depthStubNode pageId, caches, [])) := by
  constructor
  · intro p h
    simp [resolveOptions, h, orDefaultNat]
  · intro env caches pageId opts depth h
    simp [retrievePageRecursively, h]

/-! ## Claim C3 — timeout node (corrected)

The claim says a node whose timer fires during the tasks keeps whatever
content, properties and annotations had already resolved.  The catch at
lines 670-677 returns a fresh object carrying only id, error,
partial_results and note; the resolved task outputs are discarded. -/

/-- C3 counterexample: it is not the case that a node whose timer fires
during the tasks, with the content task already resolved (the first flag of
the oracle), keeps its content: on `envT` the content task resolves to one
block, yet the returned node has no content field at all. -/
theorem timeout_discards_resolved_content :
    ¬ (∀ (env : Env) (caches : Caches) (pageId : String) (opts : Options) (depth : Nat)
         (pR mR : Bool),
        env.timeoutAt pageId depth = .duringTasks true pR mR →
        (retrievePageRecursively env caches pageId opts depth).1.error =
            some "Operation timed out" ∧
        ((retrievePageRecursively env caches pageId opts depth).1.content).isSome = true) := by
  intro h
  have hc := (h envT emptyCaches "root" (resolveOptions paramsRoot) 0 false false rfl).2
  exact absurd hc (by decide)

/-- C3 amended: when the timer fires during the expansion tasks of a node
that was resolved (from the cache, or by a 200 fetch), the returned node is
exactly the bare timeout object — error, partial_results and note beside the
id — with none of the resolved data merged in. -/
theorem timeout_node_is_bare_stub (env : Env) (caches : Caches) (pageId : String)
    (opts : Options) (depth : Nat) (cR pR mR : Bool) (d : PageData)
    (ht : env.timeoutAt pageId depth = .duringTasks cR pR mR)
    (hd : depth < effMaxDepth opts)
    (hres : (if opts.skipCache then none else alookup caches.pageCache pageId) = some d ∨
            ((if opts.skipCache then none else alookup caches.pageCache pageId) = none ∧
             env.ops "API-retrieve-a-page" = true ∧
             env.retrievePage pageId = .resp 200 d)) :
    (retrievePageRecursively env caches pageId opts depth).1 = timeoutNode pageId opts := by
  have hnd : ¬ effMaxDepth opts ≤ depth := Nat.not_le.mpr hd
  rcases hres with hhit | ⟨hmiss, hops, hfetch⟩
  · simp [retrievePageRecursively, hnd, hhit, runPageTasks, ht]
  · simp [retrievePageRecursively, hnd, hmiss, hops, hfetch, runPageTasks, ht]

/-- C3 witness: on `envT` the root node's timer fires during the tasks and
the returned node is the bare timeout object. -/
theorem timeout_node_is_bare_stub_witness :
    (retrievePageRecursively envT emptyCaches "root" (resolveOptions paramsRoot) 0).1 =
      timeoutNode "root" (resolveOptions paramsRoot) :=
  timeout_node_is_bare_stub envT emptyCaches "root" (resolveOptions paramsRoot) 0
    true false false pageA rfl (by decide) (Or.inr ⟨rfl, rfl, rfl⟩)

/-! ## Claim C4 — resolver failure at the root (corrected)

The claim says a missing document-retrieval operation aborts the whole call
with the top-level error envelope.  The throw at line 597 sits inside the
try of retrievePageRecursively, whose catch (line 680) converts it into the
node `(id, error, retrievalFailed true)`; handleOnePagerRequest receives a
resolved value and returns the tree with _meta, so the envelope path is
never taken for this failure. -/

/-- C4 counterexample: with every operation missing from the lookup table,
the one-pager response is the tree wrapping the failure node — not the error
envelope the claim requires. -/
theorem resolver_missing_counterexample :
    (handleOnePagerRequest envN emptyCaches paramsRoot).1 =
      .tree (failureNode "root" "API-retrieve-a-page method not found.")
        ⟨5, true, true, true⟩ ∧
    (∀ (msg : String) (code : Nat),
       (handleOnePagerRequest envN emptyCaches paramsRoot).1 ≠ .errorEnvelope msg code) := by
  refine ⟨rfl, ?_⟩
  intro msg code h
  rw [show (handleOnePagerRequest envN emptyCaches paramsRoot).1 =
        .tree (failureNode "root" "API-retrieve-a-page method not found.")
          ⟨5, true, true, true⟩ from rfl] at h
  exact OnePagerResult.noConfusion h

/-- C4 amended: a missing document-retrieval operation (on a cache miss,
where it is consulted) is caught inside the recursive retrieval; the call
returns the tree wrapping `(id, error API-retrieve-a-page method not found,
retrievalFailed true)` and never the top-level envelope. -/
theorem resolver_missing_contained (env : Env) (caches : Caches) (p : Params)
    (hops : env.ops "API-retrieve-a-page" = false)
    (hmiss : alookup caches.pageCache p.page_id = none) :
    (handleOnePagerRequest env caches p).1 =
      .tree (failureNode p.page_id "API-retrieve-a-page method not found.")
        ⟨(resolveOptions p).maxDepth, (resolveOptions p).includeDatabases,
         (resolveOptions p).includeComments, (resolveOptions p).includeProperties⟩ := by
  have hnd : ¬ effMaxDepth (resolveOptions p) ≤ 0 :=
    Nat.not_le.mpr (effMaxDepth_pos _)
  by_cases hsc : (resolveOptions p).skipCache <;>
    simp [handleOnePagerRequest, handleOnePagerTry, retrievePageRecursively,
          hnd, hsc, hmiss, hops]

/-- C4 witness: the contained failure at the concrete envN. -/
theorem resolver_missing_contained_witness :
    (handleOnePagerRequest envN emptyCaches paramsRoot).1 =
      .tree (failureNode "root" "API-retrieve-a-page method not found.")
        ⟨5, true, true, true⟩ :=
  resolver_missing_contained envN emptyCaches paramsRoot rfl rfl

/-! ## Claim C8 — the aggregate operation never throws past its boundary -/

/-- C8: for every environment (success, non-200 status, thrown error or
timeout at any point) and every cache state and parameters, the one-pager
handler returns the structured tree body with its meta object; in the
embedding, where every possible throw is an explicit value, no error escapes
— retrievePageRecursively catches each one into a node field. -/
theorem one_pager_always_returns_tree :
    ∀ (env : Env) (caches : Caches) (p : Params),
      ∃ n : PageNode, (handleOnePagerRequest env caches p).1 =
        .tree n ⟨(resolveOptions p).maxDepth, (resolveOptions p).includeDatabases,
                 (resolveOptions p).includeComments, (resolveOptions p).includeProperties⟩ :=
  fun env caches p =>
    ⟨(retrievePageRecursively env caches p.page_id (resolveOptions p) 0).1, rfl⟩

/-! ## Claim C7 — internal-link property identifiers are skipped -/

/-- C7: a property whose identifier contains the internal-link marker (the
raw scheme, or its percent-encoded form, which the code detects through the
encoded separator) gets the unsupported-type detail stub, issues no remote
call and writes no cache entry; the stub is not an error stub.  Stated for
the per-property loop body and for property enrichment of the entry. -/
theorem unsupported_marker_property_skipped :
    (∀ (env : Env) (caches : Caches) (opts : Options) (pageId : String)
       (pe : PropEntry) (p : String),
        pe.pid = some p →
        (strIncludes p "notion://" = true ∨ strIncludes p "notion%3A%2F%2F" = true) →
        (if opts.skipCache then none
         else alookup caches.propertyCache (propCacheKey pageId p)) = none →
        enrichOneProperty env caches opts pageId pe =
          (⟨pe.pid, pe.payload, some .unsupportedStub⟩, caches, [])) ∧
    (∀ (env : Env) (caches : Caches) (opts : Options) (pageId nm : String)
       (pe : PropEntry) (p : String),
        pe.pid = some p →
        (strIncludes p "notion://" = true ∨ strIncludes p "notion%3A%2F%2F" = true) →
        (if opts.skipCache then none
         else alookup caches.propertyCache (propCacheKey pageId p)) = none →
        enrichPageProperties env caches opts pageId [(nm, pe)] =
          ([(nm, ⟨pe.pid, pe.payload, some .unsupportedStub⟩)], caches, [])) := by
  have main : ∀ (env : Env) (caches : Caches) (opts : Options) (pageId : String)
      (pe : PropEntry) (p : String),
      pe.pid = some p →
      (strIncludes p "notion://" = true ∨ strIncludes p "notion%3A%2F%2F" = true) →
      (if opts.skipCache then none
       else alookup caches.propertyCache (propCacheKey pageId p)) = none →
      enrichOneProperty env caches opts pageId pe =
        (⟨pe.pid, pe.payload, some .unsupportedStub⟩, caches, []) := by
    intro env caches opts pageId pe p hp hm hc
    have hne : ¬ p = "" := by
      rintro rfl
      revert hm
      decide
    have hcode : (strIncludes p "notion://" || strIncludes p "%3A%2F%2F") = true := by
      rcases hm with h | h
      · simp [h]
      · have h1 : "notion%3A%2F%2F".data <:+: p.data := of_decide_eq_true h
        have h2 : "%3A%2F%2F".data <:+: "notion%3A%2F%2F".data := by decide
        have h3 : "%3A%2F%2F".data <:+: p.data := h2.trans h1
        simp [strIncludes, h3]
    simp [enrichOneProperty, hp, hne, hc, hcode]
  refine ⟨main, ?_⟩
  intro env caches opts pageId nm pe p hp hm hc
  simp [enrichPageProperties, main env caches opts pageId pe p hp hm hc]

/-! ## Claim C9 — children order follows the listing order -/

/-- The enrichment of one block keeps that block as the base of its result. -/
theorem enrichBlock_base (env : Env) (opts : Options)
    (recur : Caches → String → Nat → List BlockNode × Caches × Log)
    (depth : Nat) (caches : Caches) (b : Block) :
    (enrichBlock env opts recur depth caches b).1.base = b := rfl

/-- Enriching one batch yields exactly one node per block, in batch order. -/
theorem runBlockList_ids (enrich : Caches → Block → EBlock × Caches × Log)
    (hE : ∀ c b, (enrich c b).1.base = b) :
    ∀ (l : List Block) (c : Caches),
      (runBlockList enrich l c).1.map BlockNode.idOf = l.map (fun b => some b.id) := by
  intro l
  induction l with
  | nil => intro c; rfl
  | cons b bs ih =>
    intro c
    simp [runBlockList, BlockNode.idOf, ih, hE]

/-- The batch loop concatenates the enriched batches in listing order; with
enough fuel (the list's length, as the caller passes) the node ids equal the
listing's ids in order. -/
theorem runBatches_ids (enrich : Caches → Block → EBlock × Caches × Log)
    (hE : ∀ c b, (enrich c b).1.base = b) (n : Nat) (hn : n ≠ 0) :
    ∀ (fuel : Nat) (l : List Block) (c : Caches), l.length ≤ fuel →
      (runBatches enrich n fuel l c).1.map BlockNode.idOf =
        l.map (fun b => some b.id) := by
  intro fuel
  induction fuel with
  | zero =>
    intro l c h
    have : l = [] := List.eq_nil_of_length_eq_zero (Nat.le_zero.mp h)
    subst this
    rfl
  | succ fuel ih =>
    intro l c h
    match l with
    | [] => rfl
    | b :: bs =>
      have hlen : ((b :: bs).drop n).length ≤ fuel := by
        simp only [List.length_drop, List.length_cons]
        simp only [List.length_cons] at h
        omega
      simp only [runBatches, List.map_append,
        runBlockList_ids enrich hE ((b :: bs).take n) c,
        ih ((b :: bs).drop n) _ hlen]
      rw [← List.map_append]
      rw [List.take_append_drop]

/-- C9: for every environment, options, cache state and depth below the
bound, when the child listing's first page succeeds the ids of the node's
final children sequence equal, in order, the ids of the merged listing the
pagination step produced — children are processed in sequential batches of
the effective batch size and batch results are concatenated in listing
order, so expansion never reorders siblings. -/
theorem children_order_preserved (env : Env) (opts : Options) (fuel : Nat)
    (caches : Caches) (blockId : String) (depth : Nat) (d : ListingData)
    (hd : depth < effMaxDepth opts)
    (hops : env.ops "API-get-block-children" = true)
    (hfetch : env.blockChildren blockId none = .resp 200 d) :
    (retrieveBlocksRecursively env opts (fuel + 1) caches blockId depth).1.map
        BlockNode.idOf =
      ((mergeLoop env blockId env.pfuel d.results d.next_cursor []).1).map
        (fun b => some b.id) := by
  have hnd : ¬ effMaxDepth opts ≤ depth := Nat.not_le.mpr hd
  have hbcp : handleBlockChildrenParallel env blockId =
      .ok (.merged { d with
                      results := (mergeLoop env blockId env.pfuel d.results d.next_cursor []).1,
                      has_more := false, next_cursor := none },
           [("API-get-block-children", blockId)] ++
             (mergeLoop env blockId env.pfuel d.results d.next_cursor []).2) := by
    simp [handleBlockChildrenParallel, hfetch]
  simp only [retrieveBlocksRecursively]
  rw [if_neg hnd]
  rw [if_neg (show ¬ env.ops "API-get-block-children" = false by simp [hops])]
  rw [hbcp]
  simp only [BCPBody.blocks]
  split
  · next hb =>
    rw [hb]
    rfl
  · exact runBatches_ids
      (fun c b => enrichBlock env opts
        (fun c2 id dp => retrieveBlocksRecursively env opts fuel c2 id dp) depth c b)
      (fun c b => enrichBlock_base env opts _ depth c b)
      (effBatchSize opts) (Nat.pos_iff_ne_zero.mp (effBatchSize_pos opts))
      (mergeLoop env blockId env.pfuel d.results d.next_cursor []).1.length
      (mergeLoop env blockId env.pfuel d.results d.next_cursor []).1 caches le_rfl

/-- C9 witness: on envA's one-block listing the child ids come back in
listing order. -/
theorem children_order_preserved_witness :
    (retrieveBlocksRecursively envA (resolveOptions paramsRoot) 5 emptyCaches
        "root" 0).1.map BlockNode.idOf = [some "b1"] := by
  have h := children_order_preserved envA (resolveOptions paramsRoot) 4 emptyCaches
    "root" 0 ⟨"list", [mkBlock "b1"], false, none, "x"⟩ (by decide) rfl rfl
  exact h.trans rfl

/-! ## Claim C6 — cache hit avoids a second fetch

The machinery below tracks two facts through every function of the crawl:
once the page cache holds an entry for a key, it keeps holding one, and no
function but the root resolution (and a basic-info fetch of an uncached
page, impossible for a cached key when skipCache is off) ever issues a
retrieve-a-page call for that key. -/

/-- Lookup after insert: the inserted key shadows, others fall through. -/
theorem alookup_aset {α : Type} (l : List (String × α)) (k2 k : String) (v : α) :
    alookup (aset l k2 v) k = if k = k2 then some v else alookup l k := rfl

/-- Call counting distributes over log concatenation. -/
theorem pageCalls_append (l1 l2 : Log) (k : String) :
    pageCalls (l1 ++ l2) k = pageCalls l1 k + pageCalls l2 k := by
  simp [pageCalls, List.countP_append]

/-- A single call to a different operation counts no page call. -/
theorem pageCalls_other (op arg k : String) (h : ¬ op = "API-retrieve-a-page") :
    pageCalls [(op, arg)] k = 0 := by
  simp [pageCalls, List.countP_cons, h]

/-- A page call for a different id counts no page call for this one. -/
theorem pageCalls_page_ne (pid k : String) (h : ¬ pid = k) :
    pageCalls [("API-retrieve-a-page", pid)] k = 0 := by
  simp [pageCalls, List.countP_cons, h]

/-- A page call for this id counts one. -/
theorem pageCalls_page_self (pid : String) :
    pageCalls [("API-retrieve-a-page", pid)] pid = 1 := by
  simp [pageCalls, List.countP_cons]

/-- Batch page requests of the merge loop are child-listing calls. -/
theorem pageCalls_children_map (l : List String) (k : String) :
    pageCalls (l.map (fun cur => ("API-get-block-children", cur))) k = 0 := by
  induction l with
  | nil => rfl
  | cons c cs ih =>
    simp only [List.map_cons]
    have : pageCalls (("API-get-block-children", c) ::
        cs.map (fun cur => ("API-get-block-children", cur))) k =
      pageCalls [("API-get-block-children", c)] k +
        pageCalls (cs.map (fun cur => ("API-get-block-children", cur))) k :=
      pageCalls_append [("API-get-block-children", c)] _ k
    rw [this, ih, pageCalls_other _ _ _ (by decide)]

/-- The merge loop issues only child-listing calls. -/
theorem mergeLoop_pageCalls (env : Env) (blockId : String) :
    ∀ (fuel : Nat) (acc : List Block) (nc : Option String) (pending : List String)
      (k : String),
      pageCalls (mergeLoop env blockId fuel acc nc pending).2 k = 0 := by
  intro fuel
  induction fuel with
  | zero =>
    intro acc nc pending k
    cases nc <;> rfl
  | succ fuel ih =>
    intro acc nc pending k
    cases nc with
    | none => rfl
    | some c =>
      simp only [mergeLoop]
      split
      · rw [pageCalls_append, pageCalls_children_map, ih]
      · exact ih acc (some c) (pending ++ [c]) k

/-- The shape of a handleBlockChildrenParallel result whose first page got a
response. -/
theorem handleBCP_eq_of_resp (env : Env) (blockId : String) (s : Nat)
    (d : ListingData) (hf : env.blockChildren blockId none = .resp s d) :
    handleBlockChildrenParallel env blockId =
      if s = 200 then
        .ok (.merged { d with
                        results := (mergeLoop env blockId env.pfuel d.results d.next_cursor []).1,
                        has_more := false, next_cursor := none },
             [("API-get-block-children", blockId)] ++
               (mergeLoop env blockId env.pfuel d.results d.next_cursor []).2)
      else .ok (.rawError d, [("API-get-block-children", blockId)]) := by
  unfold handleBlockChildrenParallel
  rw [hf]

/-- handleBlockChildrenParallel issues only child-listing calls. -/
theorem bcp_pageCalls (env : Env) (blockId : String) (r : BCPBody × Log)
    (k : String) (h : handleBlockChildrenParallel env blockId = .ok r) :
    pageCalls r.2 k = 0 := by
  cases hf : env.blockChildren blockId none with
  | thrown e =>
    unfold handleBlockChildrenParallel at h
    rw [hf] at h
    exact absurd h (by simp)
  | resp s d =>
    rw [handleBCP_eq_of_resp env blockId s d hf] at h
    by_cases hs : s = 200
    · rw [if_pos hs] at h
      obtain rfl := ((Except.ok.injEq _ _).mp h).symm
      rw [pageCalls_append, mergeLoop_pageCalls, pageCalls_other _ _ _ (by decide)]
    · rw [if_neg hs] at h
      obtain rfl := ((Except.ok.injEq _ _).mp h).symm
      exact pageCalls_other _ _ _ (by decide)

/-- retrievePageBasicInfo keeps a cached key cached and, with skipCache off,
never issues a page call for a key that is already cached. -/
theorem basicInfo_inv (env : Env) (c : Caches) (opts : Options) (pid k : String)
    (hsc : opts.skipCache = false)
    (hk : (alookup c.pageCache k).isSome = true) :
    (alookup (retrievePageBasicInfo env c opts pid).2.1.pageCache k).isSome = true ∧
    pageCalls (retrievePageBasicInfo env c opts pid).2.2 k = 0 := by
  have hpk : alookup c.pageCache pid = none → ¬ pid = k := by
    intro hl he
    subst he
    rw [hl] at hk
    exact absurd hk (by simp)
  cases hl : alookup c.pageCache pid with
  | some d =>
    have he : retrievePageBasicInfo env c opts pid = (.fromCache d, c, []) := by
      unfold retrievePageBasicInfo
      rw [hsc, hl]
      rfl
    rw [he]
    exact ⟨hk, rfl⟩
  | none =>
    have hne := hpk hl
    cases hops : env.ops "API-retrieve-a-page" with
    | false =>
      have he : retrievePageBasicInfo env c opts pid = (.noOp pid, c, []) := by
        unfold retrievePageBasicInfo
        rw [hsc, hl, hops]
        rfl
      rw [he]
      exact ⟨hk, rfl⟩
    | true =>
      cases hf : env.retrievePage pid with
      | thrown e =>
        have he : retrievePageBasicInfo env c opts pid =
            (.threw pid e.message, c, [("API-retrieve-a-page", pid)]) := by
          unfold retrievePageBasicInfo
          rw [hsc, hl, hops, hf]
          rfl
        rw [he]
        exact ⟨hk, pageCalls_page_ne _ _ hne⟩
      | resp s d =>
        have he : retrievePageBasicInfo env c opts pid =
            if s = 200 then
              (.fetched d, { c with pageCache := aset c.pageCache pid d },
               [("API-retrieve-a-page", pid)])
            else (.httpError pid s, c, [("API-retrieve-a-page", pid)]) := by
          unfold retrievePageBasicInfo
          rw [hsc, hl, hops, hf]
          rfl
        rw [he]
        by_cases hs : s = 200
        · rw [if_pos hs]
          constructor
          · show (alookup (aset c.pageCache pid d) k).isSome = true
            rw [alookup_aset]
            by_cases hkp : k = pid
            · rw [if_pos hkp]
              rfl
            · rw [if_neg hkp]
              exact hk
          · exact pageCalls_page_ne _ _ hne
        · rw [if_neg hs]
          exact ⟨hk, pageCalls_page_ne _ _ hne⟩

/-- retrieveDatabase never touches the page cache nor issues page calls. -/
theorem retrieveDatabase_inv (env : Env) (c : Caches) (opts : Options)
    (i k : String) :
    (retrieveDatabase env c opts i).2.1.pageCache = c.pageCache ∧
    pageCalls (retrieveDatabase env c opts i).2.2 k = 0 := by
  unfold retrieveDatabase
  split
  · exact ⟨rfl, rfl⟩
  · split
    · exact ⟨rfl, rfl⟩
    · split
      · exact ⟨rfl, pageCalls_other _ _ _ (by decide)⟩
      · split
        · exact ⟨rfl, pageCalls_other _ _ _ (by decide)⟩
        · exact ⟨rfl, pageCalls_other _ _ _ (by decide)⟩

/-- retrieveComments never touches the page cache nor issues page calls. -/
theorem retrieveComments_inv (env : Env) (c : Caches) (i k : String) :
    (retrieveComments env c i).2.1.pageCache = c.pageCache ∧
    pageCalls (retrieveComments env c i).2.2 k = 0 := by
  unfold retrieveComments
  split
  · exact ⟨rfl, rfl⟩
  · split
    · exact ⟨rfl, pageCalls_other _ _ _ (by decide)⟩
    · split
      · exact ⟨rfl, pageCalls_other _ _ _ (by decide)⟩
      · exact ⟨rfl, pageCalls_other _ _ _ (by decide)⟩

/-- The per-property loop body never touches the page cache nor issues page
calls. -/
theorem enrichOneProperty_inv (env : Env) (c : Caches) (opts : Options)
    (pid : String) (pe : PropEntry) (k : String) :
    (enrichOneProperty env c opts pid pe).2.1.pageCache = c.pageCache ∧
    pageCalls (enrichOneProperty env c opts pid pe).2.2 k = 0 := by
  cases hp : pe.pid with
  | none =>
    simp only [enrichOneProperty, hp]
    constructor <;> trivial
  | some p =>
    simp only [enrichOneProperty, hp]
    by_cases hpe : p = ""
    · rw [if_pos hpe]
      constructor <;> trivial
    · rw [if_neg hpe]
      cases hcc : (if opts.skipCache then none
          else alookup c.propertyCache (propCacheKey pid p)) with
      | some dd => constructor <;> trivial
      | none =>
        by_cases hm : (strIncludes p "notion://" || strIncludes p "%3A%2F%2F") = true
        · rw [if_pos hm]
          constructor <;> trivial
        · rw [if_neg hm]
          by_cases hop : env.ops "API-retrieve-a-page-property" = false
          · rw [if_pos hop]
            constructor <;> trivial
          · rw [if_neg hop]
            cases hf : env.propertyFetch pid p with
            | thrown e =>
              simp only []
              by_cases he2 : (if e.status = 0 then 500 else e.status) = 200
              · rw [if_pos he2]
                exact ⟨rfl, pageCalls_other _ _ _ (by decide)⟩
              · rw [if_neg he2]
                exact ⟨rfl, pageCalls_other _ _ _ (by decide)⟩
            | resp s v =>
              simp only []
              by_cases hs : s = 200
              · rw [if_pos hs]
                exact ⟨rfl, pageCalls_other _ _ _ (by decide)⟩
              · rw [if_neg hs]
                exact ⟨rfl, pageCalls_other _ _ _ (by decide)⟩

/-- Property enrichment never touches the page cache nor issues page calls. -/
theorem enrichProps_inv (env : Env) (opts : Options) (pid : String) (k : String) :
    ∀ (props : List (String × PropEntry)) (c : Caches),
      (enrichPageProperties env c opts pid props).2.1.pageCache = c.pageCache ∧
      pageCalls (enrichPageProperties env c opts pid props).2.2 k = 0 := by
  intro props
  induction props with
  | nil => intro c; exact ⟨rfl, rfl⟩
  | cons pr rest ih =>
    intro c
    obtain ⟨nm, pe⟩ := pr
    simp only [enrichPageProperties]
    constructor
    · rw [(ih _).1, (enrichOneProperty_inv env c opts pid pe k).1]
    · rw [pageCalls_append, (ih _).2, (enrichOneProperty_inv env c opts pid pe k).2]

/-- The children task preserves a cached key and its zero page-call count,
provided the recursion does. -/
theorem childrenTask_inv
    (recur : Caches → String → Nat → List BlockNode × Caches × Log)
    (depth : Nat)
    (hR : ∀ (c : Caches) (i : String) (dp : Nat) (k : String),
      (alookup c.pageCache k).isSome = true →
      (alookup (recur c i dp).2.1.pageCache k).isSome = true ∧
      pageCalls (recur c i dp).2.2 k = 0)
    (c : Caches) (b : Block) (k : String)
    (hk : (alookup c.pageCache k).isSome = true) :
    (alookup (childrenTask recur depth c b).2.1.pageCache k).isSome = true ∧
    pageCalls (childrenTask recur depth c b).2.2 k = 0 := by
  unfold childrenTask
  split
  · exact hR c b.id (depth + 1) k hk
  · exact ⟨hk, rfl⟩

/-- The database task preserves a cached key and issues no page call. -/
theorem databaseTask_inv (env : Env) (opts : Options) (c : Caches) (b : Block)
    (k : String) (hk : (alookup c.pageCache k).isSome = true) :
    (alookup (databaseTask env opts c b).2.1.pageCache k).isSome = true ∧
    pageCalls (databaseTask env opts c b).2.2 k = 0 := by
  unfold databaseTask
  split
  · cases b.database_id with
    | some dbId =>
      have h := retrieveDatabase_inv env c opts dbId k
      exact ⟨by rw [h.1]; exact hk, h.2⟩
    | none => exact ⟨hk, rfl⟩
  · exact ⟨hk, rfl⟩

/-- The page-info task preserves a cached key and, with skipCache off,
issues no page call for it. -/
theorem pageInfoTask_inv (env : Env) (opts : Options) (depth : Nat)
    (hsc : opts.skipCache = false) (c : Caches) (b : Block) (k : String)
    (hk : (alookup c.pageCache k).isSome = true) :
    (alookup (pageInfoTask env opts depth c b).2.1.pageCache k).isSome = true ∧
    pageCalls (pageInfoTask env opts depth c b).2.2 k = 0 := by
  unfold pageInfoTask
  split
  · exact basicInfo_inv env c opts b.id k hsc hk
  · exact ⟨hk, rfl⟩

/-- One enriched batch member keeps a cached key cached and issues no page
call for it, provided the child recursion does. -/
theorem enrichBlock_inv (env : Env) (opts : Options)
    (recur : Caches → String → Nat → List BlockNode × Caches × Log)
    (depth : Nat) (hsc : opts.skipCache = false)
    (hR : ∀ (c : Caches) (i : String) (dp : Nat) (k : String),
      (alookup c.pageCache k).isSome = true →
      (alookup (recur c i dp).2.1.pageCache k).isSome = true ∧
      pageCalls (recur c i dp).2.2 k = 0) :
    ∀ (c : Caches) (b : Block) (k : String),
      (alookup c.pageCache k).isSome = true →
      (alookup (enrichBlock env opts recur depth c b).2.1.pageCache k).isSome = true ∧
      pageCalls (enrichBlock env opts recur depth c b).2.2 k = 0 := by
  intro c b k hk
  have h1 := childrenTask_inv recur depth hR
    { c with blockCache := aset c.blockCache b.id b } b k hk
  have h2 := databaseTask_inv env opts
    (childrenTask recur depth { c with blockCache := aset c.blockCache b.id b } b).2.1
    b k h1.1
  have h3 := pageInfoTask_inv env opts depth hsc
    (databaseTask env opts
      (childrenTask recur depth { c with blockCache := aset c.blockCache b.id b } b).2.1
      b).2.1
    b k h2.1
  refine ⟨h3.1, ?_⟩
  show pageCalls (_ ++ _ ++ _) k = 0
  rw [pageCalls_append, pageCalls_append, h1.2, h2.2, h3.2]

/-- One batch preserves a cached key and its zero page-call count. -/
theorem runBlockList_inv (enrich : Caches → Block → EBlock × Caches × Log)
    (hE : ∀ (c : Caches) (b : Block) (k : String),
      (alookup c.pageCache k).isSome = true →
      (alookup (enrich c b).2.1.pageCache k).isSome = true ∧
      pageCalls (enrich c b).2.2 k = 0) :
    ∀ (l : List Block) (c : Caches) (k : String),
      (alookup c.pageCache k).isSome = true →
      (alookup (runBlockList enrich l c).2.1.pageCache k).isSome = true ∧
      pageCalls (runBlockList enrich l c).2.2 k = 0 := by
  intro l
  induction l with
  | nil => intro c k hk; exact ⟨hk, rfl⟩
  | cons b bs ih =>
    intro c k hk
    have h1 := hE c b k hk
    have h2 := ih (enrich c b).2.1 k h1.1
    refine ⟨h2.1, ?_⟩
    show pageCalls (_ ++ _) k = 0
    rw [pageCalls_append, h1.2, h2.2]

/-- The batch loop preserves a cached key and its zero page-call count. -/
theorem runBatches_inv (enrich : Caches → Block → EBlock × Caches × Log)
    (hE : ∀ (c : Caches) (b : Block) (k : String),
      (alookup c.pageCache k).isSome = true →
      (alookup (enrich c b).2.1.pageCache k).isSome = true ∧
      pageCalls (enrich c b).2.2 k = 0) (n : Nat) :
    ∀ (fuel : Nat) (l : List Block) (c : Caches) (k : String),
      (alookup c.pageCache k).isSome = true →
      (alookup (runBatches enrich n fuel l c).2.1.pageCache k).isSome = true ∧
      pageCalls (runBatches enrich n fuel l c).2.2 k = 0 := by
  intro fuel
  induction fuel with
  | zero => intro l c k hk; exact ⟨hk, rfl⟩
  | succ fuel ih =>
    intro l c k hk
    match l with
    | [] => exact ⟨hk, rfl⟩
    | b :: bs =>
      have h1 := runBlockList_inv enrich hE ((b :: bs).take n) c k hk
      have h2 := ih ((b :: bs).drop n)
        (runBlockList enrich ((b :: bs).take n) c).2.1 k h1.1
      refine ⟨h2.1, ?_⟩
      show pageCalls (_ ++ _) k = 0
      rw [pageCalls_append, h1.2, h2.2]

/-- The recursive block expansion keeps a cached key cached and, with
skipCache off, never issues a retrieve-a-page call for it. -/
theorem rBR_inv (env : Env) (opts : Options) (hsc : opts.skipCache = false) :
    ∀ (fuel : Nat) (c : Caches) (blockId : String) (depth : Nat) (k : String),
      (alookup c.pageCache k).isSome = true →
      (alookup (retrieveBlocksRecursively env opts fuel c blockId depth).2.1.pageCache
          k).isSome = true ∧
      pageCalls (retrieveBlocksRecursively env opts fuel c blockId depth).2.2 k = 0 := by
  intro fuel
  induction fuel with
  | zero => intro c blockId depth k hk; exact ⟨hk, rfl⟩
  | succ fuel ih =>
    intro c blockId depth k hk
    simp only [retrieveBlocksRecursively]
    split
    · exact ⟨hk, rfl⟩
    · split
      · exact ⟨hk, rfl⟩
      · cases hbcp : handleBlockChildrenParallel env blockId with
        | error e => exact ⟨hk, rfl⟩
        | ok body =>
          simp only []
          split
          · exact ⟨hk, bcp_pageCalls env blockId body k hbcp⟩
          · have hE := enrichBlock_inv env opts
              (fun c2 i dp => retrieveBlocksRecursively env opts fuel c2 i dp)
              depth hsc (fun c2 i dp k2 hk2 => ih c2 i dp k2 hk2)
            have hr := runBatches_inv _ hE (effBatchSize opts)
              body.1.blocks.length body.1.blocks c k hk
            refine ⟨hr.1, ?_⟩
            show pageCalls (_ ++ _) k = 0
            rw [pageCalls_append, hr.2, bcp_pageCalls env blockId body k hbcp]

/-- The property task preserves a cached key and issues no page call. -/
theorem propsTask_inv (env : Env) (opts : Options) (c : Caches)
    (pid : String) (pd : PageData) (k : String)
    (hk : (alookup c.pageCache k).isSome = true) :
    (alookup (propsTask env opts c pid pd).2.1.pageCache k).isSome = true ∧
    pageCalls (propsTask env opts c pid pd).2.2 k = 0 := by
  unfold propsTask
  cases pd.properties with
  | none => exact ⟨hk, rfl⟩
  | some props =>
    simp only []
    split
    · have h := enrichProps_inv env opts pid k props c
      exact ⟨by rw [h.1]; exact hk, h.2⟩
    · exact ⟨hk, rfl⟩

/-- The comments task preserves a cached key and issues no page call. -/
theorem commentsTask_inv (env : Env) (opts : Options) (c : Caches)
    (pid : String) (k : String)
    (hk : (alookup c.pageCache k).isSome = true) :
    (alookup (commentsTask env opts c pid).2.1.pageCache k).isSome = true ∧
    pageCalls (commentsTask env opts c pid).2.2 k = 0 := by
  unfold commentsTask
  split
  · have h := retrieveComments_inv env c pid k
    exact ⟨by rw [h.1]; exact hk, h.2⟩
  · exact ⟨hk, rfl⟩

/-- The combined expansion tasks of one page keep a cached key cached and,
with skipCache off, issue no retrieve-a-page call for it — in the timeout
branch exactly as in the normal branch, since the started tasks run on. -/
theorem runPageTasks_inv (env : Env) (opts : Options) (hsc : opts.skipCache = false)
    (c : Caches) (pid : String) (depth : Nat) (pd : PageData) (k : String)
    (hk : (alookup c.pageCache k).isSome = true) :
    (alookup (runPageTasks env c pid opts depth pd).2.1.pageCache k).isSome = true ∧
    pageCalls (runPageTasks env c pid opts depth pd).2.2 k = 0 := by
  have h1 := rBR_inv env opts hsc (effMaxDepth opts) c pid (depth + 1) k hk
  have h2 := propsTask_inv env opts
    (retrieveBlocksRecursively env opts (effMaxDepth opts) c pid (depth + 1)).2.1
    pid pd k h1.1
  have h3 := commentsTask_inv env opts
    (propsTask env opts
      (retrieveBlocksRecursively env opts (effMaxDepth opts) c pid (depth + 1)).2.1
      pid pd).2.1
    pid k h2.1
  have hlog : pageCalls
      ((retrieveBlocksRecursively env opts (effMaxDepth opts) c pid (depth + 1)).2.2 ++
        (propsTask env opts
          (retrieveBlocksRecursively env opts (effMaxDepth opts) c pid (depth + 1)).2.1
          pid pd).2.2 ++
        (commentsTask env opts
          (propsTask env opts
            (retrieveBlocksRecursively env opts (effMaxDepth opts) c pid (depth + 1)).2.1
            pid pd).2.1
          pid).2.2) k = 0 := by
    rw [pageCalls_append, pageCalls_append, h1.2, h2.2, h3.2]
  unfold runPageTasks
  cases env.timeoutAt pid depth <;> exact ⟨h3.1, hlog⟩

/-- The shape of retrievePageRecursively when the page misses the cache and
is fetched with status 200 (and the timer does not preempt the fetch). -/
theorem rPR_eq_fetch200 (env : Env) (caches : Caches) (pid : String)
    (opts : Options) (depth : Nat) (d : PageData)
    (hd : ¬ effMaxDepth opts ≤ depth)
    (hsc : opts.skipCache = false)
    (hmiss : alookup caches.pageCache pid = none)
    (hops : env.ops "API-retrieve-a-page" = true)
    (hto : env.timeoutAt pid depth ≠ .duringFetch)
    (hf : env.retrievePage pid = .resp 200 d) :
    retrievePageRecursively env caches pid opts depth =
      ((runPageTasks env { caches with pageCache := aset caches.pageCache pid d }
          pid opts depth d).1,
       (runPageTasks env { caches with pageCache := aset caches.pageCache pid d }
          pid opts depth d).2.1,
       [("API-retrieve-a-page", pid)] ++
         (runPageTasks env { caches with pageCache := aset caches.pageCache pid d }
            pid opts depth d).2.2) := by
  unfold retrievePageRecursively
  rw [if_neg hd, hsc, hmiss, hops]
  cases hcase : env.timeoutAt pid depth with
  | duringFetch => exact absurd hcase hto
  | never =>
    rw [hf]
    rfl
  | duringTasks cR pR mR =>
    rw [hf]
    rfl

/-- The shape of retrievePageRecursively on a cache hit with skipCache off. -/
theorem rPR_eq_cacheHit (env : Env) (caches : Caches) (pid : String)
    (opts : Options) (depth : Nat) (d : PageData)
    (hd : ¬ effMaxDepth opts ≤ depth)
    (hsc : opts.skipCache = false)
    (hhit : alookup caches.pageCache pid = some d) :
    retrievePageRecursively env caches pid opts depth =
      runPageTasks env caches pid opts depth d := by
  unfold retrievePageRecursively
  rw [if_neg hd, hsc, hhit]
  rfl

/-- The handler's cache and log are the recursive retrieval's. -/
theorem handler_snd (env : Env) (caches : Caches) (p : Params) :
    (handleOnePagerRequest env caches p).2 =
      (retrievePageRecursively env caches p.page_id (resolveOptions p) 0).2 := rfl

/-- C6: with skipCache off, an uncached root whose fetch returns 200 (and is
not preempted by the timer) is fetched once — running the aggregate
operation twice issues at most one retrieve-a-page call for that root,
because the second run is served from the page cache and no other step of
either crawl re-fetches a cached key.  With skipCache on, every run issues a
fresh retrieve-a-page call for the root (whatever the caches hold), provided
only that the operation is in the lookup table. -/
theorem cache_hit_avoids_second_fetch :
    (∀ (env : Env) (caches : Caches) (p : Params) (d : PageData),
      (resolveOptions p).skipCache = false →
      alookup caches.pageCache p.page_id = none →
      env.ops "API-retrieve-a-page" = true →
      env.timeoutAt p.page_id 0 ≠ .duringFetch →
      env.retrievePage p.page_id = .resp 200 d →
      pageCalls ((handleOnePagerRequest env caches p).2.2 ++
          (handleOnePagerRequest env (handleOnePagerRequest env caches p).2.1 p).2.2)
        p.page_id ≤ 1) ∧
    (∀ (env : Env) (caches : Caches) (p : Params),
      (resolveOptions p).skipCache = true →
      env.ops "API-retrieve-a-page" = true →
      1 ≤ pageCalls (handleOnePagerRequest env caches p).2.2 p.page_id) := by
  constructor
  · intro env caches p d hsc hmiss hops hto hf
    have hd : ¬ effMaxDepth (resolveOptions p) ≤ 0 := Nat.not_le.mpr (effMaxDepth_pos _)
    have e1 := rPR_eq_fetch200 env caches p.page_id (resolveOptions p) 0 d
      hd hsc hmiss hops hto hf
    have hk2 : (alookup
        ({ caches with pageCache := aset caches.pageCache p.page_id d } : Caches).pageCache
        p.page_id).isSome = true := by
      show (alookup (aset caches.pageCache p.page_id d) p.page_id).isSome = true
      rw [alookup_aset, if_pos rfl]
      rfl
    have hrt1 := runPageTasks_inv env (resolveOptions p) hsc
      { caches with pageCache := aset caches.pageCache p.page_id d }
      p.page_id 0 d p.page_id hk2
    have key1 : (retrievePageRecursively env caches p.page_id (resolveOptions p) 0).2.2 =
        [("API-retrieve-a-page", p.page_id)] ++
          (runPageTasks env { caches with pageCache := aset caches.pageCache p.page_id d }
            p.page_id (resolveOptions p) 0 d).2.2 := by
      rw [e1]
    have key2 : (retrievePageRecursively env caches p.page_id (resolveOptions p) 0).2.1 =
        (runPageTasks env { caches with pageCache := aset caches.pageCache p.page_id d }
          p.page_id (resolveOptions p) 0 d).2.1 := by
      rw [e1]
    obtain ⟨d2, hd2⟩ := Option.isSome_iff_exists.mp hrt1.1
    have e2 := rPR_eq_cacheHit env
      (runPageTasks env { caches with pageCache := aset caches.pageCache p.page_id d }
        p.page_id (resolveOptions p) 0 d).2.1
      p.page_id (resolveOptions p) 0 d2 hd hsc hd2
    have hrt2 := runPageTasks_inv env (resolveOptions p) hsc
      (runPageTasks env { caches with pageCache := aset caches.pageCache p.page_id d }
        p.page_id (resolveOptions p) 0 d).2.1
      p.page_id 0 d2 p.page_id hrt1.1
    show pageCalls ((retrievePageRecursively env caches p.page_id (resolveOptions p) 0).2.2 ++
        (retrievePageRecursively env
          (retrievePageRecursively env caches p.page_id (resolveOptions p) 0).2.1
          p.page_id (resolveOptions p) 0).2.2) p.page_id ≤ 1
    rw [key1, key2, e2, pageCalls_append, pageCalls_append, pageCalls_page_self,
      hrt1.2, hrt2.2]
  · intro env caches p hsc hops
    have hd : ¬ effMaxDepth (resolveOptions p) ≤ 0 := Nat.not_le.mpr (effMaxDepth_pos _)
    show 1 ≤ pageCalls
      (retrievePageRecursively env caches p.page_id (resolveOptions p) 0).2.2 p.page_id
    cases hcase : env.timeoutAt p.page_id 0 with
    | duringFetch =>
      have e : retrievePageRecursively env caches p.page_id (resolveOptions p) 0 =
          (timeoutNode p.page_id (resolveOptions p), caches,
           [("API-retrieve-a-page", p.page_id)]) := by
        unfold retrievePageRecursively
        rw [if_neg hd, hsc, hops, hcase]
        rfl
      rw [e, pageCalls_page_self]
    | never =>
      cases hfc : env.retrievePage p.page_id with
      | thrown er =>
        by_cases hti : strIncludes er.message "timed out" = true
        · have e : retrievePageRecursively env caches p.page_id (resolveOptions p) 0 =
              (timeoutNode p.page_id (resolveOptions p), caches,
               [("API-retrieve-a-page", p.page_id)]) := by
            unfold retrievePageRecursively
            rw [if_neg hd, hsc, hops]
            simp only [hcase, hfc, hti]
            rfl
          rw [e, pageCalls_page_self]
        · have e : retrievePageRecursively env caches p.page_id (resolveOptions p) 0 =
              (failureNode p.page_id er.message, caches,
               [("API-retrieve-a-page", p.page_id)]) := by
            unfold retrievePageRecursively
            rw [if_neg hd, hsc, hops]
            simp only [hcase, hfc, hti]
            rfl
          rw [e, pageCalls_page_self]
      | resp s d =>
        by_cases hs : s = 200
        · have e : (retrievePageRecursively env caches p.page_id (resolveOptions p) 0).2.2 =
              [("API-retrieve-a-page", p.page_id)] ++
                (runPageTasks env
                  { caches with pageCache := aset caches.pageCache p.page_id d }
                  p.page_id (resolveOptions p) 0 d).2.2 := by
            unfold retrievePageRecursively
            rw [if_neg hd, hsc, hops]
            simp only [hcase, hfc, hs]
            rfl
          rw [e, pageCalls_append, pageCalls_page_self]
          omega
        · have e : retrievePageRecursively env caches p.page_id (resolveOptions p) 0 =
              (httpErrorNode p.page_id s d, caches,
               [("API-retrieve-a-page", p.page_id)]) := by
            unfold retrievePageRecursively
            rw [if_neg hd, hsc, hops]
            simp only [hcase, hfc, hs]
            rfl
          rw [e, pageCalls_page_self]
    | duringTasks cR pR mR =>
      cases hfc : env.retrievePage p.page_id with
      | thrown er =>
        by_cases hti : strIncludes er.message "timed out" = true
        · have e : retrievePageRecursively env caches p.page_id (resolveOptions p) 0 =
              (timeoutNode p.page_id (resolveOptions p), caches,
               [("API-retrieve-a-page", p.page_id)]) := by
            unfold retrievePageRecursively
            rw [if_neg hd, hsc, hops]
            simp only [hcase, hfc, hti]
            rfl
          rw [e, pageCalls_page_self]
        · have e : retrievePageRecursively env caches p.page_id (resolveOptions p) 0 =
              (failureNode p.page_id er.message, caches,
               [("API-retrieve-a-page", p.page_id)]) := by
            unfold retrievePageRecursively
            rw [if_neg hd, hsc, hops]
            simp only [hcase, hfc, hti]
            rfl
          rw [e, pageCalls_page_self]
      | resp s d =>
        by_cases hs : s = 200
        · have e : (retrievePageRecursively env caches p.page_id (resolveOptions p) 0).2.2 =
              [("API-retrieve-a-page", p.page_id)] ++
                (runPageTasks env
                  { caches with pageCache := aset caches.pageCache p.page_id d }
                  p.page_id (resolveOptions p) 0 d).2.2 := by
            unfold retrievePageRecursively
            rw [if_neg hd, hsc, hops]
            simp only [hcase, hfc, hs]
            rfl
          rw [e, pageCalls_append, pageCalls_page_self]
          omega
        · have e : retrievePageRecursively env caches p.page_id (resolveOptions p) 0 =
              (httpErrorNode p.page_id s d, caches,
               [("API-retrieve-a-page", p.page_id)]) := by
            unfold retrievePageRecursively
            rw [if_neg hd, hsc, hops]
            simp only [hcase, hfc, hs]
            rfl
          rw [e, pageCalls_page_self]

end NotionProxy
